import Mathlib

set_option maxRecDepth 4000

namespace HelixSoft

/-!
Shallow embedding of the validation-and-routing core of `helixsoft_avalon.py`
(class `ClinicalDataValidator` and its helpers).  Python strings are modelled
as Lean `String`; `re` matching, `int()` parsing and `strptime` date parsing
are embedded at the ASCII level (the repository only ever feeds ASCII
filenames and CSV fields to them); case-insensitive matching is modelled by
ASCII lowercasing.  Effects (file moves, the processed-file ledger, audit-log
appends) are modelled by explicit state passing; external collaborators
(FTP transport, the UUID web API, the system clock) are supplied as explicit
environment values.
-/

/-- Decimal value of a list of ASCII digit characters. -/
def digitsToNat (cs : List Char) : Nat :=
  cs.foldl (fun a c => a * 10 + (c.toNat - '0'.toNat)) 0

/-- Core of the regex `^CLINICALDATA_\d{14}\.CSV$` under `re.IGNORECASE`
applied to a whole character list: 13-character case-insensitive literal
`CLINICALDATA_`, 14 digits, then the case-insensitive literal `.CSV`
(source: `ClinicalDataValidator._validate_filename_pattern`, line 267). -/
def coreFilename (cs : List Char) : Bool :=
  cs.length == 31 &&
  ((cs.take 13).map Char.toLower == "clinicaldata_".data) &&
  ((cs.drop 13).take 14).all Char.isDigit &&
  ((cs.drop 27).map Char.toLower == ".csv".data)

/-- `ClinicalDataValidator._validate_filename_pattern` (lines 266-276):
`re.match(r'^CLINICALDATA_\d{14}\.CSV$', filename, re.IGNORECASE) is not None`.
In Python, `$` matches at the end of the string or just before a newline at
the end of the string, so the pattern also accepts the full-pattern text
followed by one trailing `'\n'`.  The status-queue messages the source emits
are presentation only and carry no decision logic. -/
def validate_filename_pattern (s : String) : Bool :=
  coreFilename s.data ||
  (s.data.getLast? == some '\n' && coreFilename s.data.dropLast)

/-- Modelled from the spec's words for the Filename Contract Checker
(spec 4.1): the name is exactly a case-insensitive literal `CLINICALDATA_`,
followed by exactly 14 decimal digits, followed by a case-insensitive
literal `.csv`, and nothing else. -/
def FilenameContract (s : String) : Prop :=
  ∃ p d q : List Char,
    s.data = p ++ d ++ q ∧
    p.map Char.toLower = "clinicaldata_".data ∧
    d.length = 14 ∧ (∀ c ∈ d, c.isDigit = true) ∧
    q.map Char.toLower = ".csv".data

lemma coreFilename_iff (cs : List Char) :
    coreFilename cs = true ↔
      ∃ p d q : List Char,
        cs = p ++ d ++ q ∧
        p.map Char.toLower = "clinicaldata_".data ∧
        d.length = 14 ∧ (∀ c ∈ d, c.isDigit = true) ∧
        q.map Char.toLower = ".csv".data := by
  constructor
  · intro h
    simp only [coreFilename, Bool.and_eq_true, beq_iff_eq, List.all_eq_true,
      decide_eq_true_eq] at h
    obtain ⟨⟨⟨hlen, hpre⟩, hdig⟩, hsuf⟩ := h
    refine ⟨cs.take 13, (cs.drop 13).take 14, (cs.drop 13).drop 14, ?_, hpre, ?_, hdig, ?_⟩
    · rw [List.append_assoc, List.take_append_drop, List.take_append_drop]
    · have h1 : (cs.drop 13).length = cs.length - 13 := List.length_drop 13 cs
      have h2 : ((cs.drop 13).take 14).length = min 14 (cs.drop 13).length :=
        List.length_take 14 (cs.drop 13)
      omega
    · rw [List.drop_drop]
      exact hsuf
  · rintro ⟨p, d, q, rfl, hp, hd, hdig, hq⟩
    have hpl : p.length = 13 := by
      have := congrArg List.length hp
      simpa using this
    have hql : q.length = 4 := by
      have := congrArg List.length hq
      simpa using this
    have htot : (p ++ d ++ q).length = 31 := by
      simp [List.length_append, hpl, hd, hql]
    have htake : (p ++ d ++ q).take 13 = p := by
      rw [List.append_assoc, ← hpl, List.take_left]
    have hdrop : (p ++ d ++ q).drop 13 = d ++ q := by
      rw [List.append_assoc, ← hpl, List.drop_left]
    have hdrop27 : (p ++ d ++ q).drop 27 = q := by
      have : (p ++ d ++ q).drop 27 = ((p ++ d ++ q).drop 13).drop 14 := by
        rw [List.drop_drop]
      rw [this, hdrop, ← hd, List.drop_left]
    have htake14 : ((p ++ d ++ q).drop 13).take 14 = d := by
      rw [hdrop, ← hd, List.take_left]
    simp only [coreFilename, Bool.and_eq_true, beq_iff_eq, List.all_eq_true]
    refine ⟨⟨⟨?_, ?_⟩, ?_⟩, ?_⟩
    · simpa using htot
    · rw [htake, hp]
    · rw [htake14]; exact hdig
    · rw [hdrop27, hq]

/-- C1 (counterexample): the string consisting of a syntactically perfect
filename followed by one trailing newline is accepted by the checker (Python
`$` matches just before a trailing newline), yet it does not satisfy the
claimed full-string contract — so "valid iff the string matches ... and
nothing else" is false on this concrete input. -/
theorem filename_checker_accepts_trailing_newline :
    validate_filename_pattern "CLINICALDATA_20250115120000.CSV\n" = true ∧
    ¬ FilenameContract "CLINICALDATA_20250115120000.CSV\n" := by
  constructor
  · decide
  · rintro ⟨p, d, q, hcat, hp, hd, _, hq⟩
    have hpl : p.length = 13 := by
      have := congrArg List.length hp
      simpa using this
    have hql : q.length = 4 := by
      have := congrArg List.length hq
      simpa using this
    have hslen : ("CLINICALDATA_20250115120000.CSV\n" : String).data.length = 32 := by
      decide
    have := congrArg List.length hcat
    simp [List.length_append, hpl, hd, hql, hslen] at this

/-- C1 (amended): the checker returns valid iff the string — after removing
at most one trailing newline character — is the case-insensitive literal
`CLINICALDATA_`, exactly 14 decimal digits, and the case-insensitive literal
`.csv`, and nothing else; in particular the empty string is invalid.  The
check is a pure function of the string. -/
theorem filename_checker_amended_contract (s : String) :
    (validate_filename_pattern s = true ↔
      (FilenameContract s ∨
        ∃ t : List Char, s.data = t ++ ['\n'] ∧ FilenameContract ⟨t⟩)) ∧
    validate_filename_pattern "" = false := by
  refine ⟨?_, by decide⟩
  unfold validate_filename_pattern
  simp only [Bool.or_eq_true, Bool.and_eq_true, beq_iff_eq]
  constructor
  · rintro (h | ⟨hlast, hcore⟩)
    · exact Or.inl ((coreFilename_iff s.data).mp h)
    · have hne : s.data ≠ [] := by
        intro he
        rw [he] at hlast
        simp at hlast
      have hsplit := List.dropLast_append_getLast hne
      rw [List.getLast?_eq_getLast s.data hne] at hlast
      have hlast2 : s.data.getLast hne = '\n' := by
        injection hlast
      refine Or.inr ⟨s.data.dropLast, ?_, (coreFilename_iff s.data.dropLast).mp hcore⟩
      conv_lhs => rw [← hsplit]
      rw [hlast2]
  · rintro (h | ⟨t, ht, hc⟩)
    · exact Or.inl ((coreFilename_iff s.data).mpr h)
    · refine Or.inr ⟨?_, ?_⟩
      · rw [ht]
        simp
      · have hdl : s.data.dropLast = t := by
          rw [ht]
          simp
        rw [hdl]
        exact (coreFilename_iff t).mpr hc

/-!  ## Content Schema Validator
`ClinicalDataValidator._validate_csv_content` (lines 278-372).  The CSV layer
(`csv.reader`) is modelled as an already-decoded `List (List String)`: one
inner list of fields per physical row, the first row being the header.
-/

/-- Whitespace characters stripped by Python `int()` before parsing
(ASCII fragment of Python's whitespace set). -/
def isPyWS (c : Char) : Bool :=
  c == ' ' || c == '\t' || c == '\n' || c == '\r' || c == '\x0b' || c == '\x0c'

/-- Strip `isPyWS` characters from both ends. -/
def stripWS (cs : List Char) : List Char :=
  ((cs.dropWhile isPyWS).reverse.dropWhile isPyWS).reverse

/-- After the first digit of a Python integer literal: digits, with single
underscores allowed only between digits. -/
def pyDigitsCore : List Char → Bool
  | [] => true
  | '_' :: c :: r => c.isDigit && pyDigitsCore r
  | '_' :: [] => false
  | c :: r => c.isDigit && pyDigitsCore r

/-- A valid Python decimal digit sequence (nonempty, underscores only
between digits). -/
def pyDigits : List Char → Bool
  | [] => false
  | c :: r => c.isDigit && pyDigitsCore r

/-- Python `int(s)` restricted to ASCII decimal strings: strips surrounding
whitespace, accepts one optional sign, then a digit sequence with optional
single underscores between digits; anything else raises `ValueError`
(modelled as `none`). -/
def pyInt (s : String) : Option Int :=
  let cs := stripWS s.data
  match cs with
  | '+' :: body => if pyDigits body then some (Int.ofNat (digitsToNat (body.filter (fun c => c != '_')))) else none
  | '-' :: body => if pyDigits body then some (-(Int.ofNat (digitsToNat (body.filter (fun c => c != '_'))))) else none
  | body => if pyDigits body then some (Int.ofNat (digitsToNat (body.filter (fun c => c != '_')))) else none

def isLeapYear (y : Nat) : Bool :=
  (y % 4 == 0 && y % 100 != 0) || y % 400 == 0

def daysInMonth (y m : Nat) : Nat :=
  if m == 2 then (if isLeapYear y then 29 else 28)
  else if m == 4 || m == 6 || m == 9 || m == 11 then 30
  else 31

/-- Split a character list at every `'-'` (the separators of `%Y-%m-%d`). -/
def splitDash : List Char → List (List Char)
  | [] => [[]]
  | c :: r =>
    if c = '-' then [] :: splitDash r
    else
      match splitDash r with
      | p :: ps => (c :: p) :: ps
      | [] => [[c]]

/-- `datetime.strptime(s, "%Y-%m-%d")`, reduced to the calendar date it
produces.  CPython compiles the format to the regex
`(?P<Y>\d\d\d\d)-(?P<m>1[0-2]|0[1-9]|[1-9])-(?P<d>3[01]|[12]\d|0[1-9]|[1-9])`,
requires the whole string to match, and then `datetime` validates the day
against the month length (and rejects year 0). -/
def pyStrptimeDate (s : String) : Option (Nat × Nat × Nat) :=
  match splitDash s.data with
  | [ys, ms, ds] =>
    if ys.length = 4 ∧ ys.all Char.isDigit
        ∧ (ms.length = 1 ∨ ms.length = 2) ∧ ms.all Char.isDigit
        ∧ (ds.length = 1 ∨ ds.length = 2) ∧ ds.all Char.isDigit then
      let y := digitsToNat ys
      let m := digitsToNat ms
      let d := digitsToNat ds
      if 1 ≤ y ∧ 1 ≤ m ∧ m ≤ 12 ∧ 1 ≤ d ∧ d ≤ daysInMonth y m then
        some (y, m, d)
      else none
    else none
  | _ => none

/-- Strict `<` on dates, as Python compares `datetime` values. -/
def dateLt (a b : Nat × Nat × Nat) : Bool :=
  a.1 < b.1 ||
  (a.1 == b.1 && (a.2.1 < b.2.1 || (a.2.1 == b.2.1 && a.2.2 < b.2.2)))

/-- The fixed header schema (line 292). -/
def expectedFields : List String :=
  ["PatientID", "TrialCode", "DrugCode", "Dosage_mg",
   "StartDate", "EndDate", "Outcome", "SideEffects", "Analyst"]

/-- `"_".join` composite key `f"{patient_id}_{trial_code}_{drug_code}"`
(line 347), read off the first three fields of a row. -/
def compositeKey (row : List String) : String :=
  row.getD 0 "" ++ "_" ++ row.getD 1 "" ++ "_" ++ row.getD 2 ""

/-- Python `", ".join`. -/
def joinComma : List String → String
  | [] => ""
  | [x] => x
  | x :: r => x ++ ", " ++ joinComma r

/-- Missing-field check (lines 320-323): Python truthiness — only the empty
string is falsy, so no trimming happens and a whitespace-only field counts
as present. -/
def missingErr (row : List String) : List String :=
  if row.getD 0 "" = "" ∨ row.getD 1 "" = "" ∨ row.getD 2 "" = "" ∨
     row.getD 3 "" = "" ∨ row.getD 4 "" = "" ∨ row.getD 5 "" = "" ∨
     row.getD 6 "" = "" ∨ row.getD 7 "" = "" ∨ row.getD 8 "" = "" then
    ["Missing required fields"]
  else []

/-- Dosage check (lines 325-331): `int(dosage)`, then positivity. -/
def dosageErr (row : List String) : List String :=
  match pyInt (row.getD 3 "") with
  | some v => if v ≤ 0 then ["Invalid dosage: " ++ row.getD 3 ""] else []
  | none => ["Non-numeric dosage: " ++ row.getD 3 ""]

/-- Date checks (lines 333-340): both dates must parse as `%Y-%m-%d` (one
shared defect otherwise), and then `end < start` is flagged. -/
def datesErr (row : List String) : List String :=
  match pyStrptimeDate (row.getD 4 ""), pyStrptimeDate (row.getD 5 "") with
  | some sd, some ed =>
    if dateLt ed sd then ["End date before start date"] else []
  | _, _ => ["Invalid date format"]

/-- Outcome check (lines 342-344): case-sensitive membership in
`["Improved", "No Change", "Worsened"]`. -/
def outcomeErr (row : List String) : List String :=
  if row.getD 6 "" = "Improved" ∨ row.getD 6 "" = "No Change" ∨
     row.getD 6 "" = "Worsened" then []
  else ["Invalid outcome: " ++ row.getD 6 ""]

/-- Per-pass duplicate check (lines 346-349). -/
def dupErr (row : List String) (seen : List String) : List String :=
  if compositeKey row ∈ seen then ["Duplicate record"] else []

/-- The `record_errors` list built for one 9-field row (lines 317-351), in
source order: missing fields, dosage, dates, outcome, duplicate. -/
def rowFieldErrors (row : List String) (seen : List String) : List String :=
  missingErr row ++ dosageErr row ++ datesErr row ++ outcomeErr row ++ dupErr row seen

/-- Accumulated validation state of the row loop: the `errors` list, the
length of `valid_records`, and the `seen_records` set (as a list). -/
structure ValState where
  errors : List String
  validCount : Nat
  seen : List String
  deriving DecidableEq

/-- One iteration of the row loop (lines 308-357): a row with a field count
other than 9 appends its error and `continue`s (no field checks, no key
registration, not counted); otherwise the field checks run, the composite
key is registered if fresh, and the row is counted iff `record_errors`
is empty. -/
def processRow (rowNum : Nat) (row : List String) (st : ValState) : ValState :=
  if row.length ≠ 9 then
    { st with errors := st.errors ++
        ["Row " ++ toString rowNum ++ ": Expected 9 fields, got " ++ toString row.length] }
  else
    let recErrs := rowFieldErrors row st.seen
    let newSeen :=
      if compositeKey row ∈ st.seen then st.seen else st.seen ++ [compositeKey row]
    if recErrs = [] then
      { errors := st.errors, validCount := st.validCount + 1, seen := newSeen }
    else
      { errors := st.errors ++ ["Row " ++ toString rowNum ++ ": " ++ joinComma recErrs],
        validCount := st.validCount, seen := newSeen }

/-- The row loop, carrying the 1-based row number (the header is row 1, so
the first data row is numbered 2). -/
def runRows : Nat → ValState → List (List String) → ValState
  | _, st, [] => st
  | n, st, r :: rs => runRows (n + 1) (processRow n r st) rs

/-- `ClinicalDataValidator._validate_csv_content` on decoded rows: header
check, then the row loop; returns `(is_valid, errors, record_count)`.
An empty file (no rows at all) reports "File is empty". -/
def validate_csv_content (content : List (List String)) : Bool × List String × Nat :=
  match content with
  | [] => (false, ["File is empty"], 0)
  | header :: rows =>
    if header ≠ expectedFields then (false, ["Invalid header structure"], 0)
    else
      let st := runRows 2 ⟨[], 0, []⟩ rows
      if st.errors = [] then (true, [], st.validCount)
      else (false, st.errors, st.validCount)

/-! ### String-distinctness helpers for the defect messages -/

lemma strData_append (a b : String) : (a ++ b).data = a.data ++ b.data := rfl

lemma str_append_ne_of_get (p q x : String) (i : Nat)
    (hp : i < p.data.length) (hne : p.data[i]? ≠ q.data[i]?) : p ++ x ≠ q := by
  intro he
  have hd : p.data ++ x.data = q.data := by rw [← strData_append, he]
  have h2 : (p.data ++ x.data)[i]? = q.data[i]? := by rw [hd]
  rw [List.getElem?_append, if_pos hp] at h2
  exact hne h2

lemma str_append_ne_append_of_get (p q x y : String) (i : Nat)
    (hp : i < p.data.length) (hq : i < q.data.length)
    (hne : p.data[i]? ≠ q.data[i]?) : p ++ x ≠ q ++ y := by
  intro he
  have hd : p.data ++ x.data = q.data ++ y.data := by
    rw [← strData_append, ← strData_append, he]
  have h2 : (p.data ++ x.data)[i]? = (q.data ++ y.data)[i]? := by rw [hd]
  rw [List.getElem?_append, if_pos hp] at h2
  rw [List.getElem?_append, if_pos hq] at h2
  exact hne h2

/-! ### Shapes of the five defect components -/

lemma mem_missingErr {row : List String} {m : String} (h : m ∈ missingErr row) :
    m = "Missing required fields" := by
  unfold missingErr at h
  split at h <;> simp_all

lemma mem_dosageErr {row : List String} {m : String} (h : m ∈ dosageErr row) :
    m = "Invalid dosage: " ++ row.getD 3 "" ∨
    m = "Non-numeric dosage: " ++ row.getD 3 "" := by
  unfold dosageErr at h
  split at h
  · split at h <;> simp_all
  · simp_all

lemma mem_datesErr {row : List String} {m : String} (h : m ∈ datesErr row) :
    m = "End date before start date" ∨ m = "Invalid date format" := by
  unfold datesErr at h
  split at h
  · split at h <;> simp_all
  · simp_all

lemma mem_outcomeErr {row : List String} {m : String} (h : m ∈ outcomeErr row) :
    m = "Invalid outcome: " ++ row.getD 6 "" := by
  unfold outcomeErr at h
  split at h <;> simp_all

lemma mem_dupErr {row seen : List String} {m : String} (h : m ∈ dupErr row seen) :
    m = "Duplicate record" ∧ compositeKey row ∈ seen := by
  unfold dupErr at h
  split at h <;> simp_all

lemma dup_mem_dupErr {row seen : List String} (h : compositeKey row ∈ seen) :
    "Duplicate record" ∈ dupErr row seen := by
  simp [dupErr, h]

/-- Helper: "Duplicate record" occurs among a row's record errors exactly
when the composite key was already seen. -/
lemma dup_mem_rowFieldErrors (row seen : List String) :
    "Duplicate record" ∈ rowFieldErrors row seen ↔ compositeKey row ∈ seen := by
  unfold rowFieldErrors
  simp only [List.mem_append]
  constructor
  · rintro ((((h | h) | h) | h) | h)
    · exact absurd (mem_missingErr h) (by decide)
    · rcases mem_dosageErr h with h | h
      · exact absurd h.symm (str_append_ne_of_get _ _ _ 0 (by decide) (by decide))
      · exact absurd h.symm (str_append_ne_of_get _ _ _ 0 (by decide) (by decide))
    · rcases mem_datesErr h with h | h <;> exact absurd h (by decide)
    · exact absurd (mem_outcomeErr h).symm
        (str_append_ne_of_get _ _ _ 0 (by decide) (by decide))
    · exact (mem_dupErr h).2
  · intro h
    exact Or.inr (dup_mem_dupErr h)

/-! ### Row-loop invariants -/

lemma processRow_count (n : Nat) (r : List String) (st : ValState) :
    (processRow n r st).errors.length + (processRow n r st).validCount =
      st.errors.length + st.validCount + 1 := by
  simp only [processRow]
  split_ifs <;> simp [List.length_append, Nat.add_assoc, Nat.add_comm, Nat.add_left_comm]

lemma processRow_seen (n : Nat) (r : List String) (st : ValState) :
    (processRow n r st).seen =
      if r.length = 9 then
        (if compositeKey r ∈ st.seen then st.seen else st.seen ++ [compositeKey r])
      else st.seen := by
  simp only [processRow]
  split_ifs <;> simp_all

lemma processRow_seen_mem (n : Nat) (r : List String) (st : ValState) (k : String) :
    k ∈ (processRow n r st).seen ↔
      k ∈ st.seen ∨ (r.length = 9 ∧ compositeKey r = k) := by
  rw [processRow_seen]
  by_cases h9 : r.length = 9
  · rw [if_pos h9]
    by_cases hk : compositeKey r ∈ st.seen
    · rw [if_pos hk]
      simp only [h9, true_and]
      constructor
      · intro h
        exact Or.inl h
      · rintro (h | rfl)
        · exact h
        · exact hk
    · rw [if_neg hk]
      simp only [List.mem_append, List.mem_singleton, h9, true_and]
      constructor
      · rintro (h | h)
        · exact Or.inl h
        · exact Or.inr h.symm
      · rintro (h | h)
        · exact Or.inl h
        · exact Or.inr h.symm
  · rw [if_neg h9]
    simp [h9]

lemma runRows_append (xs ys : List (List String)) (n : Nat) (st : ValState) :
    runRows n st (xs ++ ys) = runRows (n + xs.length) (runRows n st xs) ys := by
  induction xs generalizing n st with
  | nil => simp [runRows]
  | cons r rs ih =>
    have step : runRows n st ((r :: rs) ++ ys) =
        runRows (n + 1) (processRow n r st) (rs ++ ys) := rfl
    have step2 : runRows n st (r :: rs) = runRows (n + 1) (processRow n r st) rs := rfl
    rw [step, ih, step2]
    congr 1
    simp only [List.length_cons]
    omega

lemma runRows_count (rows : List (List String)) (n : Nat) (st : ValState) :
    (runRows n st rows).errors.length + (runRows n st rows).validCount =
      st.errors.length + st.validCount + rows.length := by
  induction rows generalizing n st with
  | nil => simp [runRows]
  | cons r rs ih =>
    simp only [runRows]
    rw [ih]
    have := processRow_count n r st
    simp [List.length_cons]
    omega

lemma runRows_seen_mem (rows : List (List String)) (n : Nat) (st : ValState)
    (k : String) :
    k ∈ (runRows n st rows).seen ↔
      k ∈ st.seen ∨ ∃ r ∈ rows, r.length = 9 ∧ compositeKey r = k := by
  induction rows generalizing n st with
  | nil => simp [runRows]
  | cons r rs ih =>
    simp only [runRows]
    rw [ih]
    rw [processRow_seen_mem]
    simp only [List.mem_cons]
    constructor
    · rintro ((h | ⟨h9, hk⟩) | ⟨q, hq, h9, hk⟩)
      · exact Or.inl h
      · exact Or.inr ⟨r, Or.inl rfl, h9, hk⟩
      · exact Or.inr ⟨q, Or.inr hq, h9, hk⟩
    · rintro (h | ⟨q, (rfl | hq), h9, hk⟩)
      · exact Or.inl (Or.inl h)
      · exact Or.inl (Or.inr ⟨h9, hk⟩)
      · exact Or.inr ⟨q, hq, h9, hk⟩

/-! ### Claim theorems for the Content Schema Validator -/

/-- C2: with a correct header, `is_valid` is true exactly when the defect
list is empty; each scanned data row contributes either one defect entry or
one counted record, so `record_count + defects.length = rows.length`
(`record_count` counts only defect-free rows); and a row whose field count
is not 9 only appends the defect `"Row n: Expected 9 fields, got N"` — it
runs no further checks (its composite key is not registered) and is not
counted. -/
theorem content_verdict_and_count (rows : List (List String)) :
    ((validate_csv_content (expectedFields :: rows)).1 = true ↔
      (validate_csv_content (expectedFields :: rows)).2.1 = []) ∧
    ((validate_csv_content (expectedFields :: rows)).2.2 +
      ((validate_csv_content (expectedFields :: rows)).2.1).length = rows.length) ∧
    (∀ (n : Nat) (r : List String) (st : ValState), r.length ≠ 9 →
      processRow n r st =
        { errors := st.errors ++
            ["Row " ++ toString n ++ ": Expected 9 fields, got " ++ toString r.length],
          validCount := st.validCount, seen := st.seen }) := by
  refine ⟨?_, ?_, ?_⟩
  · simp only [validate_csv_content]
    rw [if_neg (by simp)]
    split_ifs with h <;> simp [h]
  · simp only [validate_csv_content]
    rw [if_neg (by simp)]
    have := runRows_count rows 2 ⟨[], 0, []⟩
    split_ifs with h <;> (simp_all; try omega)
  · intro n r st h
    simp only [processRow]
    rw [if_pos h]

/-- C2 witness: a concrete 2-field row appends exactly the field-count
defect, registers no key, and is not counted. -/
theorem content_verdict_and_count_witness :
    processRow 2 ["a", "b"] ⟨[], 0, []⟩ =
      { errors := ["Row 2: Expected 9 fields, got 2"], validCount := 0, seen := [] } := by
  rw [(content_verdict_and_count []).2.2 2 ["a", "b"] ⟨[], 0, []⟩ (by decide)]
  decide

/-- C3 counterexample: the claim's enum literal `NoChange` is rejected by
the code with defect "Invalid outcome: NoChange", while the code's actual
literal `"No Change"` (with a space, outside the claimed enum) passes — on
this concrete input the claimed iff fails in both directions. -/
theorem outcome_nochange_rejected :
    validate_csv_content [expectedFields,
      ["P001", "T001", "D001", "100", "2024-01-01", "2024-01-31",
       "NoChange", "None", "Dr. Smith"]] =
      (false, ["Row 2: Invalid outcome: NoChange"], 0) ∧
    validate_csv_content [expectedFields,
      ["P001", "T001", "D001", "100", "2024-01-01", "2024-01-31",
       "No Change", "None", "Dr. Smith"]] =
      (true, [], 1) := by
  constructor <;> decide

/-- C3 (amended): for every data row, the Outcome field produces the defect
`"Invalid outcome: <value>"` exactly when the value is not one of the three
case-sensitive literals `Improved`, `No Change`, `Worsened` (the middle
literal contains a space, unlike the spec's `NoChange`). -/
theorem outcome_enum_amended (row seen : List String) :
    ("Invalid outcome: " ++ row.getD 6 "") ∈ rowFieldErrors row seen ↔
      ¬(row.getD 6 "" = "Improved" ∨ row.getD 6 "" = "No Change" ∨
        row.getD 6 "" = "Worsened") := by
  unfold rowFieldErrors
  simp only [List.mem_append]
  constructor
  · rintro ((((h | h) | h) | h) | h)
    · exact absurd (mem_missingErr h).symm
        (str_append_ne_of_get _ _ _ 0 (by decide) (by decide)).symm
    · rcases mem_dosageErr h with h | h
      · exact absurd h (Ne.symm (str_append_ne_append_of_get _ _ _ _ 8
          (by decide) (by decide) (by decide)))
      · exact absurd h (Ne.symm (str_append_ne_append_of_get _ _ _ _ 0
          (by decide) (by decide) (by decide)))
    · rcases mem_datesErr h with h | h
      · exact absurd h.symm (str_append_ne_of_get _ _ _ 0 (by decide) (by decide)).symm
      · exact absurd h.symm (str_append_ne_of_get _ _ _ 8 (by decide) (by decide)).symm
    · intro hc
      have := mem_outcomeErr h
      unfold outcomeErr at h
      rw [if_pos hc] at h
      simp at h
    · exact absurd (mem_dupErr h).1.symm
        (str_append_ne_of_get _ _ _ 0 (by decide) (by decide)).symm
  · intro h
    refine Or.inl (Or.inr ?_)
    unfold outcomeErr
    rw [if_neg h]
    simp

/-- Concrete exercise of the outcome check on a row whose Outcome field is
the spec's (rejected) spelling. -/
theorem outcome_check_concrete_example :
    rowFieldErrors
      ["P001", "T001", "D001", "100", "2024-01-01", "2024-01-31",
       "NoChange", "None", "Dr. Smith"] [] = ["Invalid outcome: NoChange"] := by
  decide

/-- C4 counterexample: a 9-field row whose PatientID is a single space —
blank after trimming — produces no "Missing required fields" defect at all;
the file is in fact reported fully valid with the row counted. -/
theorem whitespace_field_not_flagged :
    validate_csv_content [expectedFields,
      [" ", "T001", "D001", "100", "2024-01-01", "2024-01-31",
       "Improved", "None", "Dr. Smith"]] = (true, [], 1) := by
  decide

/-- C4 (amended): the defect "Missing required fields" is recorded exactly
when one of the nine fields is the empty string (Python truthiness, no
trimming: whitespace-only fields are treated as present). -/
theorem missing_fields_amended (row seen : List String) :
    "Missing required fields" ∈ rowFieldErrors row seen ↔
      (row.getD 0 "" = "" ∨ row.getD 1 "" = "" ∨ row.getD 2 "" = "" ∨
       row.getD 3 "" = "" ∨ row.getD 4 "" = "" ∨ row.getD 5 "" = "" ∨
       row.getD 6 "" = "" ∨ row.getD 7 "" = "" ∨ row.getD 8 "" = "") := by
  unfold rowFieldErrors
  simp only [List.mem_append]
  constructor
  · rintro ((((h | h) | h) | h) | h)
    · have := mem_missingErr h
      unfold missingErr at h
      split at h
      · assumption
      · simp at h
    · rcases mem_dosageErr h with h | h
      · exact absurd h.symm (str_append_ne_of_get _ _ _ 0 (by decide) (by decide))
      · exact absurd h.symm (str_append_ne_of_get _ _ _ 0 (by decide) (by decide))
    · rcases mem_datesErr h with h | h <;> exact absurd h (by decide)
    · exact absurd (mem_outcomeErr h).symm
        (str_append_ne_of_get _ _ _ 0 (by decide) (by decide))
    · exact absurd (mem_dupErr h).1 (by decide)
  · intro h
    refine Or.inl (Or.inl (Or.inl (Or.inl ?_)))
    unfold missingErr
    rw [if_pos h]
    simp

/-- C5: duplicate detection is order-sensitive over the underscore-joined
composite key.  A row processed after prefix `pre` of the same pass carries
the "Duplicate record" defect exactly when some earlier 9-field row of the
pass has the same composite key (so a first occurrence is clean and every
later occurrence is flagged, regardless of the row's other defects — the
duplicate message is appended alongside them); the second conjunct grounds
the prefix state in the actual row loop. -/
theorem duplicate_order_sensitive (pre post : List (List String)) (r : List String) :
    (("Duplicate record" ∈ rowFieldErrors r (runRows 2 ⟨[], 0, []⟩ pre).seen) ↔
      ∃ q ∈ pre, q.length = 9 ∧ compositeKey q = compositeKey r) ∧
    runRows 2 ⟨[], 0, []⟩ (pre ++ r :: post) =
      runRows (2 + pre.length + 1)
        (processRow (2 + pre.length) r (runRows 2 ⟨[], 0, []⟩ pre)) post := by
  constructor
  · rw [dup_mem_rowFieldErrors, runRows_seen_mem]
    simp
  · rw [runRows_append]
    rfl

/-- C10: a row with a field count other than 9 never registers its composite
key, so a later well-formed row whose key matches only such malformed rows
is not flagged as a duplicate. -/
theorem malformed_row_no_key_registration (pre : List (List String))
    (r : List String)
    (h : ∀ q ∈ pre, compositeKey q = compositeKey r → q.length ≠ 9) :
    "Duplicate record" ∉ rowFieldErrors r (runRows 2 ⟨[], 0, []⟩ pre).seen := by
  rw [dup_mem_rowFieldErrors, runRows_seen_mem]
  rintro (h0 | ⟨q, hq, h9, hk⟩)
  · simp at h0
  · exact h q hq hk h9

/-- C10 witness: a malformed 5-field row sharing PatientID, TrialCode and
DrugCode with a later well-formed row does not cause a duplicate flag. -/
theorem malformed_row_no_key_registration_witness :
    "Duplicate record" ∉ rowFieldErrors
      ["P001", "T001", "D001", "100", "2024-01-01", "2024-01-31",
       "Improved", "None", "Dr. Smith"]
      (runRows 2 ⟨[], 0, []⟩ [["P001", "T001", "D001", "100", "2024-01-01"]]).seen :=
  malformed_row_no_key_registration _ _ (by decide)

/-!  ## File Router
`ClinicalDataValidator.process_file` (lines 449-557).  Side effects are
modelled on an explicit state; the fallible I/O primitives (the FTP
download and the two `Path.rename` moves) are modelled as atomic — each
either succeeds or raises without effect, the raise being routed to the
method's outer `except` handler, which logs a processing error and removes
the staged download (`local_path.unlink`).  GUI `status_queue` messages and
progress callbacks are presentation only and not modelled; audit-log
appends are recorded as `(log filename, message)` pairs (their line format
is modelled separately with the Audit Logger). -/

/-- Observable state of the router: the in-memory/persisted processed-file
ledger, the staged files in the download directory, the archive and error
directories, and the audit log. -/
structure PipeState where
  ledger : List String
  downloads : List String
  archive : List String
  errorFiles : List String
  audit : List (String × String)
  deriving DecidableEq

/-- Terminal state of one `process_file` call. -/
inductive RouteResult
  | skipped | archived | rejectedName | rejectedContent | failedFatal
  deriving DecidableEq

/-- Environment for one call: whether the download succeeds, whether the
staged file can be re-read and its decoded rows, whether each rename
succeeds, and the processing date used for the canonical name. -/
structure PipeEnv where
  downloadOk : Bool
  readOk : Bool
  readErr : String
  fileRows : List (List String)
  renameErrorOk : Bool
  renameArchiveOk : Bool
  currentDate : String

/-- `self.processed_files.add(filename)` inside `_save_processed_file`
(line 241): set insertion. -/
def ledgerAdd (l : List String) (f : String) : List String :=
  if f ∈ l then l else l ++ [f]

/-- `ClinicalDataValidator.process_file`: skip if already ledgered;
download; filename check (reject to the error directory under the original
name on failure); content check (archive under the date-stamped canonical
name and record in the ledger on success, reject with one audit entry per
defect on failure); any raise reaches the outer handler, which logs a
processing error and unlinks the staged file. -/
def process_file (env : PipeEnv) (st : PipeState) (filename : String) :
    PipeState × RouteResult :=
  if filename ∈ st.ledger then
    (st, .skipped)
  else
    let logFilename := "CLINICALDATA" ++ env.currentDate ++ ".CSV"
    if !env.downloadOk then
      ({ st with audit := st.audit ++ [(logFilename, "Processing error")] }, .failedFatal)
    else
      let st1 := { st with downloads := st.downloads ++ [filename] }
      if !validate_filename_pattern filename then
        if env.renameErrorOk then
          ({ st1 with downloads := st1.downloads.erase filename,
                      errorFiles := st1.errorFiles ++ [filename],
                      audit := st1.audit ++ [(logFilename, "Invalid filename pattern")] },
           .rejectedName)
        else
          ({ st1 with downloads := st1.downloads.erase filename,
                      audit := st1.audit ++ [(logFilename, "Processing error")] },
           .failedFatal)
      else
        let res :=
          if env.readOk then validate_csv_content env.fileRows
          else (false, ["File read error: " ++ env.readErr], 0)
        if res.1 then
          if env.renameArchiveOk then
            ({ st1 with downloads := st1.downloads.erase filename,
                        archive := st1.archive ++ [logFilename],
                        ledger := ledgerAdd st1.ledger filename },
             .archived)
          else
            ({ st1 with downloads := st1.downloads.erase filename,
                        audit := st1.audit ++ [(logFilename, "Processing error")] },
             .failedFatal)
        else
          if env.renameErrorOk then
            ({ st1 with downloads := st1.downloads.erase filename,
                        errorFiles := st1.errorFiles ++ [filename],
                        audit := st1.audit ++ res.2.1.map (fun e => (logFilename, e)) },
             .rejectedContent)
          else
            ({ st1 with downloads := st1.downloads.erase filename,
                        audit := st1.audit ++ [(logFilename, "Processing error")] },
             .failedFatal)

/-- C6: the ledger is mutated only on the archived path.  In every run that
does not end in `archived` — skip, rejection for filename or content, or an
exception at any stage (download failure, either rename failure) — the
ledger is exactly the input ledger, so the file stays eligible for retry;
and a run that does end `archived` happened with a successful archive
rename, put the canonical date-stamped name into the archive, and added the
original filename to the ledger. -/
theorem ledger_only_after_archive (env : PipeEnv) (st : PipeState) (filename : String) :
    ((process_file env st filename).2 ≠ RouteResult.archived →
      (process_file env st filename).1.ledger = st.ledger) ∧
    ((process_file env st filename).2 = RouteResult.archived →
      env.renameArchiveOk = true ∧
      (process_file env st filename).1.ledger = ledgerAdd st.ledger filename ∧
      (process_file env st filename).1.archive =
        st.archive ++ ["CLINICALDATA" ++ env.currentDate ++ ".CSV"]) := by
  simp only [process_file]
  split_ifs <;> simp_all

/-- C6 witness: concrete runs — a content rejection leaves a concrete
ledger unchanged, and a concrete successful run is archived with the
ledger extended. -/
theorem ledger_only_after_archive_witness :
    (process_file
      ⟨true, true, "", [expectedFields, ["a", "b"]], true, true, "20250115"⟩
      ⟨["old.CSV"], [], [], [], []⟩ "CLINICALDATA_20250115120000.CSV").1.ledger =
      ["old.CSV"] ∧
    (process_file
      ⟨true, true, "", [expectedFields], true, true, "20250115"⟩
      ⟨["old.CSV"], [], [], [], []⟩ "CLINICALDATA_20250115120000.CSV").1.ledger =
      ledgerAdd ["old.CSV"] "CLINICALDATA_20250115120000.CSV" := by
  constructor
  · exact (ledger_only_after_archive _ _ _).1 (by decide)
  · exact ((ledger_only_after_archive _ _ _).2 (by decide)).2.1

/-- C7: routing a filename already present in the ledger is a pure skip —
the returned state is the input state unchanged (no download, no move, no
audit entry, ledger/archive/error directories untouched) with result
`skipped`, and a second routing of the same filename under any environment
is again the same pure skip, so the operation is idempotent. -/
theorem ledgered_file_pure_skip (env env2 : PipeEnv) (st : PipeState)
    (filename : String) (h : filename ∈ st.ledger) :
    process_file env st filename = (st, RouteResult.skipped) ∧
    process_file env2 (process_file env st filename).1 filename =
      (st, RouteResult.skipped) := by
  have h1 : process_file env st filename = (st, RouteResult.skipped) := by
    simp only [process_file]
    rw [if_pos h]
  refine ⟨h1, ?_⟩
  rw [h1]
  simp only [process_file]
  rw [if_pos h]

/-- C7 witness: a concrete ledgered filename is skipped twice with no state
change. -/
theorem ledgered_file_pure_skip_witness :
    process_file ⟨true, true, "", [], true, true, "20250115"⟩
      ⟨["CLINICALDATA_20250115120000.CSV"], [], [], [], []⟩
      "CLINICALDATA_20250115120000.CSV" =
      (⟨["CLINICALDATA_20250115120000.CSV"], [], [], [], []⟩, RouteResult.skipped) :=
  (ledgered_file_pure_skip _ ⟨true, true, "", [], true, true, "20250115"⟩ _ _
    (by decide)).1

/-!  ## Audit Logger
`UUIDGenerator.get_guid_from_api` (lines 57-78) and
`ClinicalDataValidator._log_error` (lines 245-264).  The HTTP call and the
local `uuid.uuid4()` randomness are environment inputs; a `uuid4` string is
modelled by its 32 hex nibbles. -/

/-- Decoded JSON body of a 200 response from the UUID API. -/
inductive ApiBody
  | jsonList (items : List String)
  | jsonDict (uuidField : Option String)
  | otherJson
  deriving DecidableEq

/-- Outcome of `requests.get(...)`: a 200 response with a decoded body, a
non-200 status, or a raised `RequestException`/`ValueError`/`KeyError`
(all caught inside `get_guid_from_api`). -/
inductive ApiResponse
  | ok (body : ApiBody)
  | notOk
  | raisesErr
  deriving DecidableEq

/-- `UUIDGenerator.get_guid_from_api`: a nonempty JSON list yields its first
element, a dict with key `uuid` yields that value, and every other outcome
(empty list, dict without the key, other JSON shape, non-200 status, caught
exception) falls back to the locally generated `str(uuid.uuid4())`. -/
def get_guid_from_api (resp : ApiResponse) (localUuid : String) : String :=
  match resp with
  | .ok (.jsonList (x :: _)) => x
  | .ok (.jsonList []) => localUuid
  | .ok (.jsonDict (some u)) => u
  | .ok (.jsonDict none) => localUuid
  | .ok .otherJson => localUuid
  | .notOk => localUuid
  | .raisesErr => localUuid

/-- Lower-case hex digit of a nibble. -/
def hexDigitChar (n : Fin 16) : Char :=
  "0123456789abcdef".data.getD n.val '0'

/-- `str(uuid.uuid4())`: 32 hex nibbles rendered 8-4-4-4-12 with hyphens. -/
def uuidStr (nib : List (Fin 16)) : String :=
  let h := nib.map hexDigitChar
  ⟨h.take 8 ++ '-' :: ((h.drop 8).take 4 ++ '-' :: ((h.drop 12).take 4 ++ '-' ::
    ((h.drop 16).take 4 ++ '-' :: (h.drop 20).take 12)))⟩

/-- Environment of one `_log_error` call: the API outcome, the nibbles of
the local fallback UUID, the `strftime("%Y-%m-%dT%H:%M:%S")` timestamp, and
whether the append to `error_report.log` succeeds (with the exception text
shown when it does not). -/
structure LogEnv where
  apiResp : ApiResponse
  localNibbles : List (Fin 16)
  timestamp : String
  appendOk : Bool
  appendErrMsg : String

/-- The formatted audit line of `_log_error` (line 252). -/
def logEntryLine (env : LogEnv) (filename msg : String) : String :=
  "[" ++ env.timestamp ++ "] GUID: " ++
    get_guid_from_api env.apiResp (uuidStr env.localNibbles) ++
    " | File: " ++ filename ++ " | Error: " ++ msg ++ "\n"

/-- `ClinicalDataValidator._log_error`: obtain a token, format the line,
append it to the audit log and return it; any exception is caught locally
and turned into the returned line `"Logging failed: <e>\n"` with the log
left unchanged.  Totality of this function is the embedding of "never
raises to its caller". -/
def log_error (env : LogEnv) (auditLog : List String) (filename msg : String) :
    String × List String :=
  if env.appendOk then
    (logEntryLine env filename msg, auditLog ++ [logEntryLine env filename msg])
  else
    ("Logging failed: " ++ env.appendErrMsg ++ "\n", auditLog)

/-- C8: `_log_error` always returns a string instead of raising: either the
exact line `"[<ts>] GUID: <token> | File: <fn> | Error: <msg>\n"` appended
to the log, or — when the append fails — the alternate single-line message
with the log unchanged.  When the external token source fails (non-200 or
caught exception) the token is the locally generated `str(uuid.uuid4())`,
which for its 32 nibbles is a 36-character string containing exactly four
hyphens; and when the timestamp, filename and message contain no newline,
the successful entry is one newline-terminated line. -/
theorem log_error_total_format (env : LogEnv) (auditLog : List String)
    (filename msg : String) :
    ((log_error env auditLog filename msg =
        (logEntryLine env filename msg, auditLog ++ [logEntryLine env filename msg])) ∨
      (log_error env auditLog filename msg =
        ("Logging failed: " ++ env.appendErrMsg ++ "\n", auditLog))) ∧
    (env.appendOk = true →
      log_error env auditLog filename msg =
        (logEntryLine env filename msg, auditLog ++ [logEntryLine env filename msg])) ∧
    (env.appendOk = false →
      log_error env auditLog filename msg =
        ("Logging failed: " ++ env.appendErrMsg ++ "\n", auditLog)) ∧
    ((env.apiResp = ApiResponse.notOk ∨ env.apiResp = ApiResponse.raisesErr) →
      get_guid_from_api env.apiResp (uuidStr env.localNibbles) =
        uuidStr env.localNibbles) ∧
    (env.localNibbles.length = 32 →
      (uuidStr env.localNibbles).length = 36 ∧
      (uuidStr env.localNibbles).data.count '-' = 4) ∧
    (env.timestamp.data.count '\n' = 0 → filename.data.count '\n' = 0 →
      msg.data.count '\n' = 0 →
      (get_guid_from_api env.apiResp (uuidStr env.localNibbles)).data.count '\n' = 0 →
      (logEntryLine env filename msg).data.count '\n' = 1 ∧
      (logEntryLine env filename msg).data.getLast? = some '\n') := by
  refine ⟨?_, ?_, ?_, ?_, ?_, ?_⟩
  · by_cases h : env.appendOk
    · exact Or.inl (by simp [log_error, h])
    · exact Or.inr (by simp [log_error, h])
  · intro h
    simp [log_error, h]
  · intro h
    simp [log_error, h]
  · rintro (h | h) <;> rw [h] <;> rfl
  · intro h
    have hlen : (env.localNibbles.map hexDigitChar).length = 32 := by
      rw [List.length_map, h]
    constructor
    · show (uuidStr env.localNibbles).data.length = 36
      simp only [uuidStr, List.length_append, List.length_cons, List.length_take,
        List.length_drop, hlen]
      omega
    · have hhexf : ∀ n : Fin 16, hexDigitChar n ≠ '-' := by decide
      have hhex : ∀ c ∈ env.localNibbles.map hexDigitChar, c ≠ '-' := by
        intro c hc
        rw [List.mem_map] at hc
        obtain ⟨n, _, rfl⟩ := hc
        exact hhexf n
      have htk : ∀ (a b : Nat),
          (((env.localNibbles.map hexDigitChar).drop a).take b).count '-' = 0 := by
        intro a b
        rw [List.count_eq_zero]
        intro hm
        exact hhex '-' (List.mem_of_mem_drop (List.mem_of_mem_take hm)) rfl
      have htk0 : ((env.localNibbles.map hexDigitChar).take 8).count '-' = 0 := by
        rw [List.count_eq_zero]
        intro hm
        exact hhex '-' (List.mem_of_mem_take hm) rfl
      simp [uuidStr, List.count_append, List.count_cons, htk, htk0]
  · intro hts hfn hmsg hguid
    constructor
    · simp only [logEntryLine, strData_append, List.count_append, hts, hfn, hmsg, hguid]
      decide
    · simp only [logEntryLine, strData_append]
      rw [List.getLast?_append]
      rfl

/-- C8 witness: a concrete call with a failed token source and a failing
append returns the alternate message and leaves the log unchanged, and a
concrete 32-nibble local UUID has the 36-character hyphenated shape. -/
theorem log_error_total_format_witness :
    log_error ⟨ApiResponse.raisesErr, List.replicate 32 (0 : Fin 16),
        "2025-01-15T12:00:00", false, "disk full"⟩ ["old"] "f.CSV" "bad row" =
      ("Logging failed: disk full\n", ["old"]) ∧
    (uuidStr (List.replicate 32 (0 : Fin 16))).length = 36 := by
  constructor
  · exact (log_error_total_format _ ["old"] "f.CSV" "bad row").2.2.1 rfl
  · exact ((log_error_total_format
      ⟨ApiResponse.raisesErr, List.replicate 32 (0 : Fin 16),
        "2025-01-15T12:00:00", false, "disk full"⟩ [] "" "").2.2.2.2.1 (by decide)).1

/-!  ## Processed-file ledger persistence
`_save_processed_file` (lines 240-243) writes
`"\n".join(sorted(processed_files))` — note: no trailing newline — and
`_load_processed_files` (lines 235-238) reads it back with
`str.splitlines()`.  The set is represented as a list; `sorted` is
insertion sort under the string order (Python compares strings
lexicographically by code point, as Lean's `String` order does). -/

/-- The characters at which Python `str.splitlines` breaks. -/
def isLineBreakChar (c : Char) : Bool :=
  c == '\n' || c == '\r' || c == '\x0b' || c == '\x0c' ||
  c == '\x1c' || c == '\x1d' || c == '\x1e' || c == '\x85' ||
  c == '\u2028' || c == '\u2029'

/-- Python `str.splitlines` over characters: every break character ends a
line (a `'\r'` immediately followed by `'\n'` counting as a single break),
and a final unterminated line is kept; the empty string yields no lines. -/
def splitlinesAux : List Char → List Char → List (List Char)
  | [], acc => if acc.isEmpty then [] else [acc.reverse]
  | c :: rest, acc =>
    if isLineBreakChar c then
      acc.reverse ::
        splitlinesAux (if c == '\r' && rest.head? == some '\n' then rest.tail else rest) []
    else splitlinesAux rest (c :: acc)
termination_by cs _ => cs.length
decreasing_by
  all_goals simp_wf
  all_goals (try split)
  all_goals (simp [List.length_tail])
  all_goals omega

def splitlinesPy (s : String) : List String :=
  (splitlinesAux s.data []).map fun l => ⟨l⟩

/-- Python `"\n".join`. -/
def joinNL : List String → String
  | [] => ""
  | [x] => x
  | x :: r => x ++ "\n" ++ joinNL r

/-- `_save_processed_file`'s serialized ledger:
`"\n".join(sorted(processed_files))`. -/
def saveLedgerText (files : List String) : String :=
  joinNL (List.insertionSort (fun a b : String => a ≤ b) files)

/-- `_load_processed_files`: `read_text().splitlines()` (then taken as a
set — membership is the meaningful result). -/
def loadLedger (s : String) : List String :=
  splitlinesPy s

lemma splitlinesAux_nil (acc : List Char) :
    splitlinesAux [] acc = if acc.isEmpty then [] else [acc.reverse] :=
  splitlinesAux.eq_1 acc

lemma splitlinesAux_nl (rest acc : List Char) :
    splitlinesAux ('\n' :: rest) acc = acc.reverse :: splitlinesAux rest [] := by
  rw [splitlinesAux.eq_2]
  rw [if_pos (by decide)]
  simp

lemma splitlinesAux_not_break (c : Char) (rest acc : List Char)
    (hc : isLineBreakChar c = false) :
    splitlinesAux (c :: rest) acc = splitlinesAux rest (c :: acc) := by
  rw [splitlinesAux.eq_2]
  rw [if_neg (by simp [hc])]

lemma splitlinesAux_break_free (x : List Char)
    (hx : ∀ c ∈ x, isLineBreakChar c = false) :
    ∀ (cs acc : List Char),
      splitlinesAux (x ++ cs) acc = splitlinesAux cs (x.reverse ++ acc) := by
  induction x with
  | nil => intro cs acc; simp
  | cons c xr ih =>
    intro cs acc
    have hc : isLineBreakChar c = false := hx c (List.mem_cons_self c xr)
    rw [List.cons_append, splitlinesAux_not_break c (xr ++ cs) acc hc,
      ih (fun d hd => hx d (List.mem_cons_of_mem c hd))]
    simp

lemma splitlinesAux_joinNL (files : List String)
    (h : ∀ f ∈ files, f.data ≠ [] ∧ ∀ c ∈ f.data, isLineBreakChar c = false) :
    splitlinesAux (joinNL files).data [] = files.map String.data := by
  induction files with
  | nil => simp [joinNL, splitlinesAux_nil]
  | cons x r ih =>
    obtain ⟨hx1, hx2⟩ := h x (List.mem_cons_self x r)
    cases r with
    | nil =>
      have hd : (joinNL [x]).data = x.data ++ [] := by simp [joinNL]
      rw [hd, splitlinesAux_break_free x.data hx2, splitlinesAux_nil]
      rw [if_neg (by simp [hx1])]
      simp
    | cons y r2 =>
      have hd : (joinNL (x :: y :: r2)).data =
          x.data ++ ('\n' :: (joinNL (y :: r2)).data) := by
        show (x ++ "\n" ++ joinNL (y :: r2)).data = _
        rw [strData_append, strData_append]
        simp
      rw [hd, splitlinesAux_break_free x.data hx2, List.append_nil, splitlinesAux_nl,
        ih (fun f hf => h f (List.mem_cons_of_mem x hf))]
      simp

lemma joinNL_last_not_break (files : List String)
    (h : ∀ f ∈ files, f.data ≠ [] ∧ ∀ c ∈ f.data, isLineBreakChar c = false)
    (hne : files ≠ []) :
    ∃ c, (joinNL files).data.getLast? = some c ∧ isLineBreakChar c = false := by
  induction files with
  | nil => exact absurd rfl hne
  | cons x r ih =>
    obtain ⟨hx1, hx2⟩ := h x (List.mem_cons_self x r)
    cases r with
    | nil =>
      refine ⟨x.data.getLast hx1, ?_, ?_⟩
      · show x.data.getLast? = _
        rw [List.getLast?_eq_getLast x.data hx1]
      · exact hx2 _ (List.getLast_mem hx1)
    | cons y r2 =>
      obtain ⟨c, hc1, hc2⟩ := ih (fun f hf => h f (List.mem_cons_of_mem x hf)) (by simp)
      refine ⟨c, ?_, hc2⟩
      have hd : (joinNL (x :: y :: r2)).data =
          (x.data ++ ['\n']) ++ (joinNL (y :: r2)).data := by
        show (x ++ "\n" ++ joinNL (y :: r2)).data = _
        rw [strData_append, strData_append]
      have hjoin_ne : (joinNL (y :: r2)).data ≠ [] := by
        intro habs
        rw [habs] at hc1
        simp at hc1
      rw [hd, List.getLast?_append_of_ne_nil _ hjoin_ne]
      exact hc1

/-- C9 counterexample: serializing the one-element set
`{"CLINICALDATA_20240101000000.CSV"}` produces exactly the bare filename
with no terminating newline — `"\n".join` never appends a trailing newline,
so the claimed newline-termination is false on this concrete input. -/
theorem ledger_text_no_trailing_newline :
    saveLedgerText ["CLINICALDATA_20240101000000.CSV"] =
      "CLINICALDATA_20240101000000.CSV" ∧
    ("CLINICALDATA_20240101000000.CSV" : String).data.getLast? ≠ some '\n' := by
  constructor
  · rfl
  · decide

/-- C9 (amended): each ledger write serializes the entire set, one filename
per line, lexicographically sorted, no header, with NO trailing newline
(the lines are newline-joined); loading the written text back yields
exactly the same set, provided each filename is nonempty and contains no
line-break character. -/
theorem ledger_roundtrip_amended (files : List String)
    (h : ∀ f ∈ files, f ≠ "" ∧ ∀ c ∈ f.data, isLineBreakChar c = false) :
    (∀ x, x ∈ loadLedger (saveLedgerText files) ↔ x ∈ files) ∧
    List.Sorted (fun a b : String => a ≤ b) (loadLedger (saveLedgerText files)) ∧
    (files ≠ [] → (saveLedgerText files).data.getLast? ≠ some '\n') := by
  have hperm : (List.insertionSort (fun a b : String => a ≤ b) files).Perm files :=
    List.perm_insertionSort _ files
  have hsorted_h : ∀ f ∈ List.insertionSort (fun a b : String => a ≤ b) files,
      f.data ≠ [] ∧ ∀ c ∈ f.data, isLineBreakChar c = false := by
    intro f hf
    have hmem : f ∈ files := hperm.mem_iff.mp hf
    obtain ⟨h1, h2⟩ := h f hmem
    refine ⟨?_, h2⟩
    intro habs
    apply h1
    cases f
    simp at habs
    rw [habs]
  have hload : loadLedger (saveLedgerText files) =
      List.insertionSort (fun a b : String => a ≤ b) files := by
    show ((splitlinesAux (joinNL _).data []).map fun l => String.mk l) = _
    rw [splitlinesAux_joinNL _ hsorted_h]
    rw [List.map_map]
    have hid : ((fun l => String.mk l) ∘ String.data) = id := by
      funext s
      cases s
      rfl
    rw [hid, List.map_id]
  refine ⟨?_, ?_, ?_⟩
  · intro x
    rw [hload, hperm.mem_iff]
  · rw [hload]
    exact List.sorted_insertionSort _ files
  · intro hne
    have hsne : List.insertionSort (fun a b : String => a ≤ b) files ≠ [] := by
      intro habs
      exact hne (List.Perm.eq_nil ((habs ▸ hperm) :
        ([] : List String).Perm files).symm)
    obtain ⟨c, hc1, hc2⟩ := joinNL_last_not_break _ hsorted_h hsne
    show (joinNL _).data.getLast? ≠ some '\n'
    rw [hc1]
    intro habs
    have : c = '\n' := by injection habs
    rw [this] at hc2
    simp [isLineBreakChar] at hc2

/-- C9 witness: a concrete two-element ledger round-trips through the
serialized text. -/
theorem ledger_roundtrip_amended_witness :
    ("a.CSV" : String) ∈ loadLedger (saveLedgerText ["b.CSV", "a.CSV"]) :=
  ((ledger_roundtrip_amended ["b.CSV", "a.CSV"] (by decide)).1 "a.CSV").mpr
    (by decide)

end HelixSoft
